import Mathlib

/-!
Verification of the ConvertPro batch conversion pipeline and conversion
history store against its design specification.

The development shallowly embeds:
* the conversion history manager (`src/unnamed/part_003`,
  `ConversionHistoryManager`): `getHistory`, `addConversion`,
  `removeConversion`, `clearHistory`, `getStats`;
* the generic batch conversion runner
  (`src/src/screens/GenericConversionProgressScreen.tsx`,
  `startOverallConversion`);
* the audio compression runner
  (`src/src/screens/AudioCompressionProgressScreen.tsx`, `startCompression`);
* the submission guard `handleConvert`
  (`src/src/screens/AudioCompressionProgressScreen.tsx`, lines 480-498).

External collaborators (the per-item codec/library calls, the key-value
storage primitive, id/timestamp generation) are modelled as oracle
parameters; everything else is translated directly from the source.
-/

namespace ConvertPro

/-- The `conversionType` tag of a history entry:
`'image' | 'audio' | 'video'` (src/unnamed/part_003, line 11). -/
inductive ConversionType where
  | image
  | audio
  | video
deriving DecidableEq

/-- `ConversionHistoryItem` (src/unnamed/part_003, lines 5-16).
Timestamps are modelled as naturals (milliseconds since epoch). -/
structure ConversionHistoryItem where
  id : String
  inputFileName : String
  outputFileName : String
  inputFormat : String
  outputFormat : String
  conversionType : ConversionType
  timestamp : Nat
  success : Bool
  outputPath : Option String := none
  fileSize : Option Nat := none
deriving DecidableEq

/-- `MAX_HISTORY_ITEMS = 50` (src/unnamed/part_003, line 19). -/
def MAX_HISTORY_ITEMS : Nat := 50

/-- The durable store under the single key `conversion_history`:
`none` models the key being absent (or `getItem` returning `null`). -/
abbrev HistoryStore := Option (List ConversionHistoryItem)

/-- `getHistory` (src/unnamed/part_003, lines 138-149): parse the stored
list, returning `[]` when the key is absent. -/
def getHistory (store : HistoryStore) : List ConversionHistoryItem :=
  store.getD []

/-- The `trimmedHistory` computed by `addConversion`
(src/unnamed/part_003, lines 125-129): unshift the new item to the front,
then keep only the first `MAX_HISTORY_ITEMS` entries. -/
def trimmedHistory (history : List ConversionHistoryItem)
    (newItem : ConversionHistoryItem) : List ConversionHistoryItem :=
  (newItem :: history).take MAX_HISTORY_ITEMS

/-- `addConversion` (src/unnamed/part_003, lines 115-135), including its
`try`/`catch`: `writeOk` tells whether the underlying storage write
succeeds; on failure the error is logged and swallowed and the store is
left unchanged.  Generation of `id`/`timestamp` is supplied by the caller
through the already-built `newItem`. -/
def addConversion (writeOk : Bool) (store : HistoryStore)
    (newItem : ConversionHistoryItem) : HistoryStore :=
  if writeOk then some (trimmedHistory (getHistory store) newItem) else store

/-- `clearHistory` (src/unnamed/part_003, lines 185-191), including its
`try`/`catch`: remove the storage key entirely; if the underlying
`removeItem` throws (`writeOk = false`), the error is logged and
swallowed and the key — hence the stored history — is left unchanged. -/
def clearHistory (writeOk : Bool) (store : HistoryStore) : HistoryStore :=
  if writeOk then none else store

/-- `removeConversion` (src/unnamed/part_003, lines 194-202), including
its `try`/`catch`: filter out the entries whose `id` equals the given id
and write the result back; if the underlying `setItem` throws
(`writeOk = false`), the error is logged and swallowed and the stored
history is left unchanged. -/
def removeConversion (writeOk : Bool) (store : HistoryStore)
    (targetId : String) : HistoryStore :=
  if writeOk then
    some ((getHistory store).filter (fun item => item.id != targetId))
  else store

/-- The record returned by `getStats` (src/unnamed/part_003, lines 205-235). -/
structure ConversionStats where
  totalConversions : Nat
  successfulConversions : Nat
  failedConversions : Nat
  imageConversions : Nat
  audioConversions : Nat
  videoConversions : Nat
deriving DecidableEq

/-- The statistics computed from a successfully read history list
(src/unnamed/part_003, lines 216-223). -/
def statsOf (history : List ConversionHistoryItem) : ConversionStats where
  totalConversions := history.length
  successfulConversions := (history.filter (fun item => item.success)).length
  failedConversions := (history.filter (fun item => !item.success)).length
  imageConversions :=
    (history.filter (fun item => decide (item.conversionType = ConversionType.image))).length
  audioConversions :=
    (history.filter (fun item => decide (item.conversionType = ConversionType.audio))).length
  videoConversions :=
    (history.filter (fun item => decide (item.conversionType = ConversionType.video))).length

/-- The all-zero statistics returned on a failed read
(src/unnamed/part_003, lines 226-233). -/
def emptyStats : ConversionStats :=
  ⟨0, 0, 0, 0, 0, 0⟩

/-- `getStats` (src/unnamed/part_003, lines 205-235) with its
`try`/`catch`: the argument is the result of attempting to read the
history; a failing read yields the all-zero record. -/
def getStats (read : Except String (List ConversionHistoryItem)) : ConversionStats :=
  match read with
  | Except.ok history => statsOf history
  | Except.error _ => emptyStats

/-! ## The generic batch conversion runner

`GenericConversionProgressScreen.tsx`.  The per-item processors
(`processImageFile` / `processAudioFile` / `processVideoFile`) are external
collaborators: each invocation either returns a `ConvertedFileResult`
(success or declared failure) or throws.  Dispatch on the media type
happens once, outside the loop body's uniform invocation shape, so the
whole processor call at queue index `i` is modelled by an oracle
`proc : Nat → ProcOutcome`. -/

/-- `FileToConvert` (GenericConversionProgressScreen.tsx, lines 38-42). -/
structure FileToConvert where
  uri : String
  name : String
  outputName : String
deriving DecidableEq

/-- `ConvertedFileResult` (GenericConversionProgressScreen.tsx, lines 44-48). -/
structure ConvertedFileResult where
  uri : String
  name : String
  outputName : String
  success : Bool
  outputPath : Option String := none
  error : Option String := none
deriving DecidableEq

/-- `ConversionState` (GenericConversionProgressScreen.tsx, line 55). -/
inductive ConversionState where
  | idle
  | preparing
  | converting
  | finishing
  | completed
  | error
  | cancelled
deriving DecidableEq

/-- What one per-item processor invocation does, as observed by the
`try` block of the loop body (lines 574-601): it either returns a
result, or throws with a message. -/
inductive ProcOutcome where
  | returned (r : ConvertedFileResult)
  | thrown (msg : String)
deriving DecidableEq

/-- `name.substring(0, name.lastIndexOf('.')) || name`: the base name
used to build the fallback output name (lines 589, 599). -/
def baseNameOf (name : String) : String :=
  let b := String.intercalate "." (name.splitOn ".").dropLast
  if b = "" then name else b

/-- The result recorded for one item: the processor's returned value, or
the normalized failure built by the `catch` at the item boundary
(lines 592-601). -/
def itemResult (file : FileToConvert) (ext : String) (o : ProcOutcome) :
    ConvertedFileResult :=
  match o with
  | ProcOutcome.returned r => r
  | ProcOutcome.thrown msg =>
      { uri := file.uri
        name := file.name
        outputName := baseNameOf file.name ++ "_converted." ++ ext
        success := false
        outputPath := none
        error := some ("Unexpected error: " ++ msg) }

/-- The partial history entry the loop hands to
`ConversionHistoryManager.addConversion` (lines 608-618), completed with
the id/timestamp that `addConversion` generates (modelled as arguments). -/
def entryOf (ty : ConversionType) (ext : String) (newId : String) (ts : Nat)
    (file : FileToConvert) (r : ConvertedFileResult) : ConversionHistoryItem where
  id := newId
  inputFileName := file.name
  outputFileName :=
    if r.outputName = "" then file.name ++ "_converted." ++ ext else r.outputName
  inputFormat := ((file.name.splitOn ".").getLastD "").toUpper
  outputFormat := ext.toUpper
  conversionType := ty
  timestamp := ts
  success := r.success
  outputPath := r.outputPath
  fileSize := none

/-- Environment of one `startOverallConversion` run: the route settings
plus the oracles for the external collaborators.  `cancelAt = some c`
models the user requesting cancellation while item `c` is being
processed (the shared flag `isCancelledRef` becomes set between the
top-of-loop check for index `c` and the one for index `c + 1`);
`cancelAt = none` models a run with no cancellation request. -/
structure RunnerEnv where
  conversionType : ConversionType
  outputFormatExtension : String
  proc : Nat → ProcOutcome
  newId : Nat → String
  now : Nat → Nat
  cancelAt : Option Nat

/-- The value of `isCancelledRef.current` observed at the top-of-loop
check for index `i` (line 562). -/
def cancelFlagAt (cancelAt : Option Nat) (i : Nat) : Bool :=
  match cancelAt with
  | none => false
  | some c => decide (c < i)

/-- Mutable state threaded through the loop of `startOverallConversion`
(lines 556-628): the `results` array, the durable history store, and the
successive values assigned to `overallProgress` (line 605).  `appended`
is the chronological audit trail of the entries handed to
`addConversion`, one per record call. -/
structure RunnerState where
  results : List ConvertedFileResult
  store : HistoryStore
  appended : List ConversionHistoryItem
  progressTrace : List ℚ

/-- The `for` loop of `startOverallConversion` (lines 561-628): check the
cancellation flag, process the current file (normalizing a thrown fault at
the item boundary), push the result, advance the overall progress to
`(i + 1) / totalFiles`, and append one history entry regardless of the
item's outcome (the write may itself fail; `w i` tells whether it
succeeds). -/
def runLoop (env : RunnerEnv) (w : Nat → Bool) (n : Nat) :
    List FileToConvert → Nat → RunnerState → RunnerState
  | [], _, s => s
  | file :: rest, i, s =>
    if cancelFlagAt env.cancelAt i then
      s
    else
      let r := itemResult file env.outputFormatExtension (env.proc i)
      let e := entryOf env.conversionType env.outputFormatExtension
        (env.newId i) (env.now i) file r
      runLoop env w n rest (i + 1)
        { results := s.results ++ [r]
          store := addConversion (w i) s.store e
          appended := s.appended ++ [e]
          progressTrace := s.progressTrace ++ [((i : ℚ) + 1) / (n : ℚ)] }

/-- `overallProgress` starts at `0` (line 64) and the store starts as
whatever the durable storage already holds. -/
def initialRunnerState (store : HistoryStore) : RunnerState :=
  { results := [], store := store, appended := [], progressTrace := [0] }

/-- The final `conversionState` assignment (lines 630-647): skipped
entirely when the cancellation flag is set (the state then stays at the
`cancelled` value assigned when cancellation was requested or detected);
otherwise `completed` when every file succeeded and `error` otherwise. -/
def classifyFinal (totalFiles : Nat) (results : List ConvertedFileResult) :
    ConversionState :=
  if (results.filter (fun r => r.success)).length = totalFiles then
    ConversionState.completed
  else
    ConversionState.error

/-- The non-cancelled terminal outcomes, distinguished exactly as the
code's final branches distinguish them (lines 635-645: the `completed`
state, versus the `error` state with the partial-failure summary message,
versus the `error` state with the all-failed message). -/
inductive BatchOutcome where
  | completed
  | mixedFailure
  | allFailed
deriving DecidableEq

/-- Which of the three final branches (lines 635-645) runs, as a function
of the per-item outcomes. -/
def classifyOutcome (totalFiles : Nat) (results : List ConvertedFileResult) :
    BatchOutcome :=
  let successCount := (results.filter (fun r => r.success)).length
  if successCount = totalFiles then BatchOutcome.completed
  else if 0 < successCount then BatchOutcome.mixedFailure
  else BatchOutcome.allFailed

/-- Everything observable about one completed `startOverallConversion`
run. -/
structure RunOutcome where
  finalState : ConversionState
  results : List ConvertedFileResult
  store : HistoryStore
  appended : List ConversionHistoryItem
  progressTrace : List ℚ

/-- `startOverallConversion` (lines 556-650): run the loop from index 0
over the whole queue, then classify the terminal state (the final
update is guarded by `!isCancelledRef.current`, whose value after the
loop is the flag at check index `totalFiles`). -/
def startOverallConversion (env : RunnerEnv) (w : Nat → Bool)
    (files : List FileToConvert) (store : HistoryStore) : RunOutcome :=
  let n := files.length
  let s := runLoop env w n files 0 (initialRunnerState store)
  { finalState :=
      if cancelFlagAt env.cancelAt n then ConversionState.cancelled
      else classifyFinal n s.results
    results := s.results
    store := s.store
    appended := s.appended
    progressTrace := s.progressTrace }

/-- The signal `handleConvert` produces for its caller
(AudioCompressionProgressScreen.tsx, lines 480-498): either the
`Alert("No files", "No files to convert.")` with an early return and no
navigation, or navigation to the progress screen, which mounts and runs
the batch. -/
inductive ConvertSignal where
  | noFilesAlert
  | startedConversion (run : RunOutcome)

/-- `handleConvert` (lines 480-498) composed with the progress screen it
navigates to: an empty selection is rejected before any runner exists;
otherwise the runner executes the batch.  The second component is the
durable history store after the call. -/
def handleConvert (env : RunnerEnv) (w : Nat → Bool)
    (files : List FileToConvert) (store : HistoryStore) :
    ConvertSignal × HistoryStore :=
  if files.length = 0 then
    (ConvertSignal.noFilesAlert, store)
  else
    (ConvertSignal.startedConversion (startOverallConversion env w files store),
      (startOverallConversion env w files store).store)

/-! ## The audio compression runner

`AudioCompressionProgressScreen.tsx`, `startCompression` (lines 62-162).
One `compressAudio` call per file, in order, with no cancellation path;
a history entry is written only inside `if (result.success)`
(lines 122-133). -/

/-- One input descriptor of the audio compression batch (route param
`files: Array<{ uri: string; name: string }>`). -/
structure AudioFile where
  uri : String
  name : String
deriving DecidableEq

/-- `AudioCompressionResult` as consumed by the progress screen: the
service reports success (with an output path) or failure (with an error
message). -/
structure AudioCompressionResult where
  success : Bool
  outputPath : Option String := none
  error : Option String := none
deriving DecidableEq

/-- What one `compressAudio` invocation does, as observed by the `try`
block of the loop (lines 98-149): returns a result or throws. -/
inductive AudioProcOutcome where
  | returned (r : AudioCompressionResult)
  | thrown (msg : String)
deriving DecidableEq

/-- Per-file `status` of `FileProgress` (lines 33-39). -/
inductive FileStatus where
  | pending
  | processing
  | completed
  | error
deriving DecidableEq

/-- Environment of one `startCompression` run: the chosen settings plus
the oracles for the compression service and id/timestamp generation. -/
structure AudioEnv where
  format : String
  proc : Nat → AudioProcOutcome
  newId : Nat → String
  now : Nat → Nat

/-- The history entry built for a successful compression
(lines 124-132): `outputFileName` is the last path component of the
output path with the `'compressed_audio'` fallback, `inputFormat` the
input name's extension with the `'unknown'` fallback, and `success` is
hard-coded `true` because the call sits inside `if (result.success)`. -/
def audioEntryOf (format : String) (newId : String) (ts : Nat)
    (file : AudioFile) (r : AudioCompressionResult) : ConversionHistoryItem where
  id := newId
  inputFileName := file.name
  outputFileName :=
    match r.outputPath with
    | none => "compressed_audio"
    | some p =>
        let last := (p.splitOn "/").getLastD ""
        if last = "" then "compressed_audio" else last
  inputFormat :=
    let ext := (file.name.splitOn ".").getLastD ""
    if ext = "" then "unknown" else ext
  outputFormat := format
  conversionType := ConversionType.audio
  timestamp := ts
  success := true
  outputPath := r.outputPath
  fileSize := none

/-- State threaded through the `startCompression` loop: the final status
each file reaches, the durable store, the audit trail of entries handed
to `addConversion`, and the successive `totalProgress` values set at the
end of each iteration (line 154).  The timing-driven simulated
increments of lines 76-96 interpolate between these checkpoints (they
are capped at `(i + 0.9) / n` before the checkpoint `(i + 1) / n`) and,
being wall-clock dependent, are not modelled. -/
structure AudioRunState where
  statuses : List FileStatus
  store : HistoryStore
  appended : List ConversionHistoryItem
  progressTrace : List ℚ

/-- The `for` loop of `startCompression` (lines 66-157): per file, the
service call either returns (status `completed` or `error` by
`result.success`; history appended only on success) or throws (status
`error`, no history); then `totalProgress := (i + 1) / totalFiles`. -/
def audioLoop (aenv : AudioEnv) (w : Nat → Bool) (n : Nat) :
    List AudioFile → Nat → AudioRunState → AudioRunState
  | [], _, s => s
  | file :: rest, i, s =>
    match aenv.proc i with
    | AudioProcOutcome.returned r =>
        if r.success then
          let e := audioEntryOf aenv.format (aenv.newId i) (aenv.now i) file r
          audioLoop aenv w n rest (i + 1)
            { statuses := s.statuses ++ [FileStatus.completed]
              store := addConversion (w i) s.store e
              appended := s.appended ++ [e]
              progressTrace := s.progressTrace ++ [((i : ℚ) + 1) / (n : ℚ)] }
        else
          audioLoop aenv w n rest (i + 1)
            { statuses := s.statuses ++ [FileStatus.error]
              store := s.store
              appended := s.appended
              progressTrace := s.progressTrace ++ [((i : ℚ) + 1) / (n : ℚ)] }
    | AudioProcOutcome.thrown _ =>
        audioLoop aenv w n rest (i + 1)
          { statuses := s.statuses ++ [FileStatus.error]
            store := s.store
            appended := s.appended
            progressTrace := s.progressTrace ++ [((i : ℚ) + 1) / (n : ℚ)] }

/-- `startCompression` (lines 62-162): run the loop from index 0 over the
whole batch; `totalProgress` starts at `0` (line 51). -/
def startCompression (aenv : AudioEnv) (w : Nat → Bool)
    (files : List AudioFile) (store : HistoryStore) : AudioRunState :=
  audioLoop aenv w files.length files 0
    { statuses := [], store := store, appended := [], progressTrace := [0] }

/-! ## Indexed abbreviations used by the loop characterizations -/

/-- The result the generic runner records for queue position `p.1`
holding file `p.2`. -/
def resultAt (env : RunnerEnv) (p : Nat × FileToConvert) : ConvertedFileResult :=
  itemResult p.2 env.outputFormatExtension (env.proc p.1)

/-- The history entry the generic runner hands to `addConversion` for
queue position `p.1` holding file `p.2`. -/
def entryAt (env : RunnerEnv) (p : Nat × FileToConvert) : ConversionHistoryItem :=
  entryOf env.conversionType env.outputFormatExtension (env.newId p.1)
    (env.now p.1) p.2 (resultAt env p)

/-- Whether the audio compression of the file at index `i` reports
success (a thrown call is not a success). -/
def audioSuccessAt (aenv : AudioEnv) (i : Nat) : Bool :=
  match aenv.proc i with
  | AudioProcOutcome.returned r => r.success
  | AudioProcOutcome.thrown _ => false

/-- The final status the audio loop assigns to the file at index `i`. -/
def audioStatusAt (aenv : AudioEnv) (i : Nat) : FileStatus :=
  if audioSuccessAt aenv i then FileStatus.completed else FileStatus.error

/-- The history entry the audio loop hands to `addConversion` for index
`p.1` holding file `p.2` (only relevant when the compression succeeded). -/
def audioEntryAt (aenv : AudioEnv) (p : Nat × AudioFile) : ConversionHistoryItem :=
  match aenv.proc p.1 with
  | AudioProcOutcome.returned r =>
      audioEntryOf aenv.format (aenv.newId p.1) (aenv.now p.1) p.2 r
  | AudioProcOutcome.thrown _ =>
      audioEntryOf aenv.format (aenv.newId p.1) (aenv.now p.1) p.2
        { success := false }

/-! ## Concrete sample inputs used by the witness theorems -/

/-- A sample image file. -/
def sampleFile : FileToConvert :=
  { uri := "file:///a.png", name := "a.png", outputName := "a_converted.jpg" }

/-- A second sample image file. -/
def sampleFile2 : FileToConvert :=
  { uri := "file:///b.png", name := "b.png", outputName := "b_converted.jpg" }

/-- A successful processor return for `sampleFile`. -/
def sampleOk : ConvertedFileResult :=
  { uri := "file:///a.png", name := "a.png", outputName := "a_converted.jpg"
    success := true, outputPath := some "ph://1" }

/-- A declared processor failure for `sampleFile2`. -/
def sampleFail : ConvertedFileResult :=
  { uri := "file:///b.png", name := "b.png", outputName := "b_converted.jpg"
    success := false, error := some "Invalid or corrupted image file." }

/-- A runner environment with no cancellation request, whose processor
succeeds on even indices and fails on odd ones. -/
def sampleEnv : RunnerEnv :=
  { conversionType := ConversionType.image
    outputFormatExtension := "jpg"
    proc := fun i =>
      if i % 2 = 0 then ProcOutcome.returned sampleOk
      else ProcOutcome.returned sampleFail
    newId := fun i => toString i
    now := fun _ => 0
    cancelAt := none }

/-- The same environment with cancellation requested while item 0 is
being processed. -/
def sampleEnvCancel0 : RunnerEnv :=
  { sampleEnv with cancelAt := some 0 }

/-- An environment whose processor throws on index 0 and succeeds
elsewhere. -/
def sampleEnvThrow0 : RunnerEnv :=
  { sampleEnv with
    proc := fun i =>
      if i = 0 then ProcOutcome.thrown "boom" else ProcOutcome.returned sampleOk }

/-- A sample audio file. -/
def sampleAudioFile : AudioFile :=
  { uri := "file:///t.mp3", name := "t.mp3" }

/-- An audio environment whose compression call always fails with a
declared error. -/
def sampleAudioEnvFail : AudioEnv :=
  { format := "mp3"
    proc := fun _ =>
      AudioProcOutcome.returned { success := false, error := some "codec failure" }
    newId := fun i => toString i
    now := fun _ => 0 }

/-- An audio environment whose compression always succeeds. -/
def sampleAudioEnvOk : AudioEnv :=
  { sampleAudioEnvFail with
    proc := fun _ =>
      AudioProcOutcome.returned { success := true, outputPath := some "/out/t_c.mp3" } }

/-- A sample history entry (used to exercise the history-store claims). -/
def sampleEntry : ConversionHistoryItem :=
  { id := "e1", inputFileName := "a.png", outputFileName := "a_converted.jpg"
    inputFormat := "PNG", outputFormat := "JPG"
    conversionType := ConversionType.image, timestamp := 1, success := true }

/-! ## Helper lemmas -/

lemma length_filter_add_length_filter_not {α : Type} (p : α → Bool) (l : List α) :
    (l.filter p).length + (l.filter (fun a => !p a)).length = l.length := by
  induction l with
  | nil => rfl
  | cons a l ih =>
    cases h : p a <;> simp [List.filter_cons, h] <;> omega

lemma length_filter_conversionType (l : List ConversionHistoryItem) :
    l.length =
      (l.filter (fun i => decide (i.conversionType = ConversionType.image))).length
      + (l.filter (fun i => decide (i.conversionType = ConversionType.audio))).length
      + (l.filter (fun i => decide (i.conversionType = ConversionType.video))).length := by
  induction l with
  | nil => rfl
  | cons a l ih =>
    cases h : a.conversionType <;> simp [List.filter_cons, h] <;> omega

lemma div_natCast_le_div_natCast {x y : ℚ} (n : Nat) (hxy : x ≤ y) :
    x / (n : ℚ) ≤ y / (n : ℚ) := by
  rcases Nat.eq_zero_or_pos n with h | h
  · simp [h]
  · exact (div_le_div_iff_of_pos_right (by exact_mod_cast h)).mpr hxy

/-- The progress values the generic loop emits from index `i` on are a
non-decreasing chain, starting from any value below the first of them. -/
lemma chain'_progress {α : Type} (n : Nat) :
    ∀ (l : List α) (i : Nat) (q : ℚ), q ≤ ((i : ℚ) + 1) / (n : ℚ) →
      List.Chain' (· ≤ ·)
        (q :: (l.enumFrom i).map (fun p => ((p.1 : ℚ) + 1) / (n : ℚ))) := by
  intro l
  induction l with
  | nil => intro i q _; simp
  | cons a t ih =>
    intro i q hq
    rw [List.enumFrom_cons, List.map_cons, List.chain'_cons]
    refine ⟨hq, ih (i + 1) _ ?_⟩
    push_cast
    exact div_natCast_le_div_natCast n (by linarith)

/-- The last progress value the generic loop emits is
`(i + length) / n` (or the seed `q` when no item is processed). -/
lemma getLast?_progress {α : Type} (n : Nat) :
    ∀ (l : List α) (i : Nat) (q : ℚ),
      (q :: (l.enumFrom i).map (fun p => ((p.1 : ℚ) + 1) / (n : ℚ))).getLast?
        = some (if l.length = 0 then q else ((i : ℚ) + l.length) / (n : ℚ)) := by
  intro l
  induction l with
  | nil => simp [List.enumFrom]
  | cons a t ih =>
    intro i q
    rw [List.enumFrom_cons, List.map_cons, List.getLast?_cons_cons, ih (i + 1)]
    rcases Nat.eq_zero_or_pos t.length with h | h
    · simp [h]
    · have hne : t.length ≠ 0 := by omega
      simp only [h, hne, if_neg, List.length_cons, Nat.succ_ne_zero, if_false]
      push_cast
      ring_nf

/-! ## Characterization of the generic runner loop -/

/-- When the cancellation flag stays unset for every check the loop will
perform, the loop processes every remaining file in order. -/
lemma runLoop_no_cancel (env : RunnerEnv) (w : Nat → Bool) (n : Nat) :
    ∀ (files : List FileToConvert) (i : Nat) (s : RunnerState),
      (∀ j, i ≤ j → j < i + files.length → cancelFlagAt env.cancelAt j = false) →
      (runLoop env w n files i s).results
          = s.results ++ (files.enumFrom i).map (resultAt env)
      ∧ (runLoop env w n files i s).appended
          = s.appended ++ (files.enumFrom i).map (entryAt env)
      ∧ (runLoop env w n files i s).progressTrace
          = s.progressTrace
            ++ (files.enumFrom i).map (fun p => ((p.1 : ℚ) + 1) / (n : ℚ)) := by
  intro files
  induction files with
  | nil => intro i s _; simp [runLoop, List.enumFrom]
  | cons file rest ih =>
    intro i s h
    have hflag : cancelFlagAt env.cancelAt i = false :=
      h i le_rfl (by simp)
    have htail : ∀ j, i + 1 ≤ j → j < (i + 1) + rest.length →
        cancelFlagAt env.cancelAt j = false := fun j h1 h2 =>
      h j (by omega) (by simp only [List.length_cons]; omega)
    obtain ⟨ih1, ih2, ih3⟩ := ih (i + 1)
      { results := s.results ++ [itemResult file env.outputFormatExtension (env.proc i)]
        store := addConversion (w i) s.store
          (entryOf env.conversionType env.outputFormatExtension (env.newId i)
            (env.now i) file
            (itemResult file env.outputFormatExtension (env.proc i)))
        appended := s.appended
          ++ [entryOf env.conversionType env.outputFormatExtension (env.newId i)
            (env.now i) file
            (itemResult file env.outputFormatExtension (env.proc i))]
        progressTrace := s.progressTrace ++ [((i : ℚ) + 1) / (n : ℚ)] } htail
    refine ⟨?_, ?_, ?_⟩ <;>
      simp [runLoop, hflag, ih1, ih2, ih3, List.enumFrom_cons, resultAt, entryAt]

/-- When cancellation is requested while item `c` is being processed, the
loop entered at index `i ≤ c + 1` processes exactly the remaining items
up to and including index `c` and then stops. -/
lemma runLoop_cancel (env : RunnerEnv) (w : Nat → Bool) (n : Nat) (c : Nat)
    (hc : env.cancelAt = some c) :
    ∀ (files : List FileToConvert) (i : Nat) (s : RunnerState), i ≤ c + 1 →
      (runLoop env w n files i s).results
          = s.results ++ ((files.take (c + 1 - i)).enumFrom i).map (resultAt env)
      ∧ (runLoop env w n files i s).appended
          = s.appended ++ ((files.take (c + 1 - i)).enumFrom i).map (entryAt env)
      ∧ (runLoop env w n files i s).progressTrace
          = s.progressTrace
            ++ ((files.take (c + 1 - i)).enumFrom i).map
              (fun p => ((p.1 : ℚ) + 1) / (n : ℚ)) := by
  intro files
  induction files with
  | nil => intro i s _; simp [runLoop, List.enumFrom]
  | cons file rest ih =>
    intro i s hi
    rcases Nat.lt_or_ge i (c + 1) with hlt | hge
    · have hflag : cancelFlagAt env.cancelAt i = false := by
        simp only [cancelFlagAt, hc, decide_eq_false_iff_not]
        omega
      have hstep : c + 1 - i = (c - i) + 1 := by omega
      have hstep' : c + 1 - (i + 1) = c - i := by omega
      obtain ⟨ih1, ih2, ih3⟩ := ih (i + 1)
        { results := s.results ++ [itemResult file env.outputFormatExtension (env.proc i)]
          store := addConversion (w i) s.store
            (entryOf env.conversionType env.outputFormatExtension (env.newId i)
              (env.now i) file
              (itemResult file env.outputFormatExtension (env.proc i)))
          appended := s.appended
            ++ [entryOf env.conversionType env.outputFormatExtension (env.newId i)
              (env.now i) file
              (itemResult file env.outputFormatExtension (env.proc i))]
          progressTrace := s.progressTrace ++ [((i : ℚ) + 1) / (n : ℚ)] }
        (by omega)
      refine ⟨?_, ?_, ?_⟩ <;>
        simp [runLoop, hflag, hstep, hstep', ih1, ih2, ih3, List.take_succ_cons,
          List.enumFrom_cons, resultAt, entryAt]
    · have hieq : i = c + 1 := by omega
      have hflag : cancelFlagAt env.cancelAt i = true := by
        simp only [cancelFlagAt, hc, decide_eq_true_eq]
        omega
      have hzero : c + 1 - i = 0 := by omega
      refine ⟨?_, ?_, ?_⟩ <;> simp [runLoop, hflag, hzero, List.enumFrom]

/-- When no check the loop performs observes the flag set, the whole run
from index 0 processes all files in order. -/
lemma startOverallConversion_full (env : RunnerEnv) (w : Nat → Bool)
    (files : List FileToConvert) (store : HistoryStore)
    (h : ∀ j, j ≤ files.length → cancelFlagAt env.cancelAt j = false) :
    (startOverallConversion env w files store).results
        = (files.enumFrom 0).map (resultAt env)
    ∧ (startOverallConversion env w files store).appended
        = (files.enumFrom 0).map (entryAt env)
    ∧ (startOverallConversion env w files store).progressTrace
        = 0 :: (files.enumFrom 0).map
            (fun p => ((p.1 : ℚ) + 1) / ((files.length : ℚ)))
    ∧ (startOverallConversion env w files store).finalState
        = classifyFinal files.length ((files.enumFrom 0).map (resultAt env)) := by
  obtain ⟨hr, ha, ht⟩ := runLoop_no_cancel env w files.length files 0
    (initialRunnerState store) (fun j _ h2 => h j (by omega))
  have hflag : cancelFlagAt env.cancelAt files.length = false := h _ le_rfl
  refine ⟨?_, ?_, ?_, ?_⟩
  · simp only [startOverallConversion]
    rw [hr]
    simp [initialRunnerState]
  · simp only [startOverallConversion]
    rw [ha]
    simp [initialRunnerState]
  · simp only [startOverallConversion]
    rw [ht]
    simp [initialRunnerState]
  · simp only [startOverallConversion, hflag]
    rw [hr]
    simp [initialRunnerState]

/-- When the user requests cancellation while item `c < n` is being
processed, the run from index 0 processes exactly items `0..c` and ends
cancelled. -/
lemma startOverallConversion_cancelled (env : RunnerEnv) (w : Nat → Bool)
    (files : List FileToConvert) (store : HistoryStore) (c : Nat)
    (hc : env.cancelAt = some c) (hlt : c < files.length) :
    (startOverallConversion env w files store).results
        = ((files.take (c + 1)).enumFrom 0).map (resultAt env)
    ∧ (startOverallConversion env w files store).appended
        = ((files.take (c + 1)).enumFrom 0).map (entryAt env)
    ∧ (startOverallConversion env w files store).progressTrace
        = 0 :: ((files.take (c + 1)).enumFrom 0).map
            (fun p => ((p.1 : ℚ) + 1) / ((files.length : ℚ)))
    ∧ (startOverallConversion env w files store).finalState
        = ConversionState.cancelled := by
  obtain ⟨hr, ha, ht⟩ := runLoop_cancel env w files.length c hc files 0
    (initialRunnerState store) (by omega)
  have hflag : cancelFlagAt env.cancelAt files.length = true := by
    simp only [cancelFlagAt, hc, decide_eq_true_eq]
    omega
  refine ⟨?_, ?_, ?_, ?_⟩
  · simp only [startOverallConversion]
    rw [hr]
    simp [initialRunnerState]
  · simp only [startOverallConversion]
    rw [ha]
    simp [initialRunnerState]
  · simp only [startOverallConversion]
    rw [ht]
    simp [initialRunnerState]
  · simp [startOverallConversion, hflag]

/-! ## Characterization of the audio compression loop -/

/-- The audio loop processes every file: its status is `completed`
exactly on reported success, the history trail gets one entry per
successful file only, and the progress advances to `(i + 1) / n` after
every file. -/
lemma audioLoop_spec (aenv : AudioEnv) (w : Nat → Bool) (n : Nat) :
    ∀ (files : List AudioFile) (i : Nat) (s : AudioRunState),
      (audioLoop aenv w n files i s).statuses
          = s.statuses ++ (files.enumFrom i).map (fun p => audioStatusAt aenv p.1)
      ∧ (audioLoop aenv w n files i s).appended
          = s.appended
            ++ ((files.enumFrom i).filter
                (fun p => audioSuccessAt aenv p.1)).map (audioEntryAt aenv)
      ∧ (audioLoop aenv w n files i s).progressTrace
          = s.progressTrace
            ++ (files.enumFrom i).map (fun p => ((p.1 : ℚ) + 1) / (n : ℚ)) := by
  intro files
  induction files with
  | nil => intro i s; simp [audioLoop, List.enumFrom]
  | cons file rest ih =>
    intro i s
    rcases hp : aenv.proc i with r | msg
    · rcases hs : r.success with _ | _
      · obtain ⟨ih1, ih2, ih3⟩ := ih (i + 1)
          { statuses := s.statuses ++ [FileStatus.error]
            store := s.store
            appended := s.appended
            progressTrace := s.progressTrace ++ [((i : ℚ) + 1) / (n : ℚ)] }
        refine ⟨?_, ?_, ?_⟩ <;>
          simp [audioLoop, hp, hs, ih1, ih2, ih3, List.enumFrom_cons,
            List.filter_cons, audioStatusAt, audioSuccessAt, audioEntryAt]
      · obtain ⟨ih1, ih2, ih3⟩ := ih (i + 1)
          { statuses := s.statuses ++ [FileStatus.completed]
            store := addConversion (w i) s.store
              (audioEntryOf aenv.format (aenv.newId i) (aenv.now i) file r)
            appended := s.appended
              ++ [audioEntryOf aenv.format (aenv.newId i) (aenv.now i) file r]
            progressTrace := s.progressTrace ++ [((i : ℚ) + 1) / (n : ℚ)] }
        refine ⟨?_, ?_, ?_⟩ <;>
          simp [audioLoop, hp, hs, ih1, ih2, ih3, List.enumFrom_cons,
            List.filter_cons, audioStatusAt, audioSuccessAt, audioEntryAt]
    · obtain ⟨ih1, ih2, ih3⟩ := ih (i + 1)
        { statuses := s.statuses ++ [FileStatus.error]
          store := s.store
          appended := s.appended
          progressTrace := s.progressTrace ++ [((i : ℚ) + 1) / (n : ℚ)] }
      refine ⟨?_, ?_, ?_⟩ <;>
        simp [audioLoop, hp, ih1, ih2, ih3, List.enumFrom_cons,
          List.filter_cons, audioStatusAt, audioSuccessAt, audioEntryAt]

/-- Counting lemma: among the statuses the audio loop assigns, the
`completed` ones are exactly the reported successes. -/
lemma audio_completed_count (aenv : AudioEnv) :
    ∀ (l : List (Nat × AudioFile)),
      ((l.map (fun p => audioStatusAt aenv p.1)).filter
          (fun st => decide (st = FileStatus.completed))).length
        = (l.filter (fun p => audioSuccessAt aenv p.1)).length := by
  intro l
  induction l with
  | nil => rfl
  | cons p t ih =>
    cases h : audioSuccessAt aenv p.1
    · have hst : audioStatusAt aenv p.1 = FileStatus.error := by
        simp [audioStatusAt, h]
      simp [List.filter_cons, hst, h, ih]
    · have hst : audioStatusAt aenv p.1 = FileStatus.completed := by
        simp [audioStatusAt, h]
      simp [List.filter_cons, hst, h, ih]

/-- The `totalProgress` trace of one `startCompression` run: `0`, then
`(i + 1) / n` after each file. -/
lemma startCompression_trace (aenv : AudioEnv) (w : Nat → Bool)
    (files : List AudioFile) (store : HistoryStore) :
    (startCompression aenv w files store).progressTrace
      = 0 :: (files.enumFrom 0).map
          (fun p => ((p.1 : ℚ) + 1) / ((files.length : ℚ))) := by
  obtain ⟨-, -, ht⟩ := audioLoop_spec aenv w files.length files 0
    { statuses := [], store := store, appended := [], progressTrace := [0] }
  simp only [startCompression]
  rw [ht]
  rfl

/-- A full run over a non-empty list ends with progress `1`. -/
lemma getLast?_progress_full {α : Type} (l : List α) (hne : l ≠ []) :
    (0 :: (l.enumFrom 0).map
        (fun p => ((p.1 : ℚ) + 1) / ((l.length : ℚ)))).getLast? = some 1 := by
  have hlen : l.length ≠ 0 := by
    cases l with
    | nil => exact absurd rfl hne
    | cons a t => simp
  rw [getLast?_progress, if_neg hlen, Nat.cast_zero, zero_add,
    div_self (show ((l.length : ℚ)) ≠ 0 by exact_mod_cast hlen)]

lemma cancelFlagAt_false_of_le (cancelAt : Option Nat) (m : Nat)
    (h : cancelFlagAt cancelAt m = false) (j : Nat) (hj : j ≤ m) :
    cancelFlagAt cancelAt j = false := by
  cases cancelAt with
  | none => rfl
  | some c =>
    simp only [cancelFlagAt, decide_eq_false_iff_not] at h ⊢
    omega

/-! ## Claim theorems -/

/-- C7: after every append to the conversion history store, the stored
list holds at most `MAX_HISTORY_ITEMS = 50` entries, the newly appended
entry sits at the front (most recent first), and what is evicted is
exactly a suffix of the previous most-recent-first list — the oldest
entries. -/
theorem history_cap_front_eviction (store : HistoryStore)
    (e : ConversionHistoryItem) :
    (getHistory (addConversion true store e)).length ≤ MAX_HISTORY_ITEMS
    ∧ (getHistory (addConversion true store e)).head? = some e
    ∧ getHistory (addConversion true store e)
        ++ (getHistory store).drop (MAX_HISTORY_ITEMS - 1)
        = e :: getHistory store := by
  have hdef : getHistory (addConversion true store e)
      = (e :: getHistory store).take MAX_HISTORY_ITEMS := rfl
  refine ⟨?_, ?_, ?_⟩
  · rw [hdef, show MAX_HISTORY_ITEMS = 50 from rfl]
    simp [List.length_take]
  · rw [hdef, show MAX_HISTORY_ITEMS = 49 + 1 from rfl, List.take_succ_cons]
    rfl
  · rw [hdef, show MAX_HISTORY_ITEMS = 49 + 1 from rfl]
    rw [show 49 + 1 - 1 = 49 from rfl,
      ← List.drop_succ_cons (a := e) (n := 49)]
    exact List.take_append_drop _ _

/-- C8: a failing history write is swallowed inside `addConversion` (the
store is simply left unchanged and the call returns normally), and no
observable aspect of the batch — terminal state, per-item results, the
record calls made, or the progress trace — depends on which history
writes succeed. -/
theorem recorder_failure_contained (env : RunnerEnv)
    (files : List FileToConvert) (store : HistoryStore) (w w' : Nat → Bool) :
    (startOverallConversion env w files store).finalState
        = (startOverallConversion env w' files store).finalState
    ∧ (startOverallConversion env w files store).results
        = (startOverallConversion env w' files store).results
    ∧ (startOverallConversion env w files store).appended
        = (startOverallConversion env w' files store).appended
    ∧ (startOverallConversion env w files store).progressTrace
        = (startOverallConversion env w' files store).progressTrace
    ∧ ∀ (s : HistoryStore) (e : ConversionHistoryItem),
        addConversion false s e = s := by
  rcases hco : env.cancelAt with _ | c
  · have hall : ∀ j, j ≤ files.length → cancelFlagAt env.cancelAt j = false :=
      fun j _ => by simp [cancelFlagAt, hco]
    obtain ⟨r1, a1, t1, f1⟩ := startOverallConversion_full env w files store hall
    obtain ⟨r2, a2, t2, f2⟩ := startOverallConversion_full env w' files store hall
    exact ⟨by rw [f1, f2], by rw [r1, r2], by rw [a1, a2], by rw [t1, t2],
      fun s e => rfl⟩
  · rcases Nat.lt_or_ge c files.length with hlt | hge
    · obtain ⟨r1, a1, t1, f1⟩ :=
        startOverallConversion_cancelled env w files store c hco hlt
      obtain ⟨r2, a2, t2, f2⟩ :=
        startOverallConversion_cancelled env w' files store c hco hlt
      exact ⟨by rw [f1, f2], by rw [r1, r2], by rw [a1, a2], by rw [t1, t2],
        fun s e => rfl⟩
    · have hall : ∀ j, j ≤ files.length → cancelFlagAt env.cancelAt j = false :=
        fun j hj => by
          simp only [cancelFlagAt, hco, decide_eq_false_iff_not]
          omega
      obtain ⟨r1, a1, t1, f1⟩ := startOverallConversion_full env w files store hall
      obtain ⟨r2, a2, t2, f2⟩ := startOverallConversion_full env w' files store hall
      exact ⟨by rw [f1, f2], by rw [r1, r2], by rw [a1, a2], by rw [t1, t2],
        fun s e => rfl⟩

/-- C9: `getStats` returns counts with
`total = successful + failed` and `total = image + audio + video`, and a
failing read yields the all-zero record. -/
theorem stats_partition (read : Except String (List ConversionHistoryItem)) :
    ((getStats read).totalConversions
        = (getStats read).successfulConversions + (getStats read).failedConversions)
    ∧ ((getStats read).totalConversions
        = (getStats read).imageConversions + (getStats read).audioConversions
          + (getStats read).videoConversions)
    ∧ ∀ msg, getStats (Except.error msg) = emptyStats := by
  refine ⟨?_, ?_, fun msg => rfl⟩
  · cases read with
    | error _ => rfl
    | ok history =>
        exact (length_filter_add_length_filter_not
          (fun item => item.success) history).symm
  · cases read with
    | error _ => rfl
    | ok history => exact length_filter_conversionType history

/-- C10: when its storage write succeeds, `removeConversion id` keeps
exactly the entries whose id differs from `id`, preserving each of them
unchanged and in their original relative order (the result is a sublist
of the previous history), and `clearHistory` removes the key so a
subsequent read yields `[]`; a swallowed storage failure leaves the
stored history unchanged in either operation. -/
theorem remove_and_clear_history (store : HistoryStore) (targetId : String) :
    getHistory (removeConversion true store targetId)
        = (getHistory store).filter (fun item => item.id != targetId)
    ∧ (∀ e, e ∈ getHistory (removeConversion true store targetId)
        ↔ e ∈ getHistory store ∧ e.id ≠ targetId)
    ∧ (getHistory (removeConversion true store targetId)).Sublist
        (getHistory store)
    ∧ getHistory (clearHistory true store) = []
    ∧ (∀ s : HistoryStore, removeConversion false s targetId = s)
    ∧ (∀ s : HistoryStore, clearHistory false s = s) := by
  refine ⟨rfl, ?_, ?_, rfl, fun s => rfl, fun s => rfl⟩
  · intro e
    simp [removeConversion, getHistory, List.mem_filter]
  · exact List.filter_sublist _

/-- C2: submitting an empty item list is rejected by `handleConvert`
before any runner exists: the caller gets the "No files" alert, the
progress screen is never navigated to (so no batch runner starts and no
state beyond idle is ever reached), and the history store is untouched. -/
theorem empty_batch_rejected (env : RunnerEnv) (w : Nat → Bool)
    (store : HistoryStore) :
    handleConvert env w [] store = (ConvertSignal.noFilesAlert, store)
    ∧ ∀ run, (handleConvert env w [] store).1
        ≠ ConvertSignal.startedConversion run := by
  refine ⟨rfl, fun run => ?_⟩
  simp [handleConvert]

/-- C1 counterexample: in the audio compression runner, a batch of one
file whose compression fails appends zero history entries, not one — the
record call sits inside `if (result.success)`. -/
theorem history_one_per_item_false :
    (startCompression sampleAudioEnvFail (fun _ => true)
        [sampleAudioFile] none).appended.length
      ≠ ([sampleAudioFile] : List AudioFile).length := by
  decide

/-- C1 amended: the generic conversion runner appends exactly one history
entry per processed item, success or failure alike; the audio compression
runner appends exactly one entry per item whose compression succeeded
(its `completed` items) and none for failed items. -/
theorem history_one_per_item_amended (env : RunnerEnv) (w : Nat → Bool)
    (files : List FileToConvert) (store : HistoryStore)
    (aenv : AudioEnv) (w' : Nat → Bool) (afiles : List AudioFile)
    (astore : HistoryStore) (h : env.cancelAt = none) :
    (startOverallConversion env w files store).appended.length = files.length
    ∧ (startCompression aenv w' afiles astore).appended.length
        = ((startCompression aenv w' afiles astore).statuses.filter
            (fun st => decide (st = FileStatus.completed))).length := by
  constructor
  · obtain ⟨-, ha, -, -⟩ := startOverallConversion_full env w files store
      (fun j _ => by simp [cancelFlagAt, h])
    rw [ha]
    simp
  · obtain ⟨hs, ha, -⟩ := audioLoop_spec aenv w' afiles.length afiles 0
      { statuses := [], store := astore, appended := [], progressTrace := [0] }
    simp only [startCompression]
    rw [ha, hs]
    simp [audio_completed_count]

/-- C1 witness: a two-file generic batch appends two entries; a one-file
successful audio compression appends as many entries as it has completed
statuses. -/
theorem history_one_per_item_amended_witness :
    sampleEnv.cancelAt = none
    ∧ ((startOverallConversion sampleEnv (fun _ => true)
          [sampleFile, sampleFile2] none).appended.length
        = ([sampleFile, sampleFile2] : List FileToConvert).length
      ∧ (startCompression sampleAudioEnvOk (fun _ => true)
          [sampleAudioFile] none).appended.length
        = ((startCompression sampleAudioEnvOk (fun _ => true)
            [sampleAudioFile] none).statuses.filter
              (fun st => decide (st = FileStatus.completed))).length) :=
  ⟨rfl, history_one_per_item_amended sampleEnv (fun _ => true)
    [sampleFile, sampleFile2] none sampleAudioEnvOk (fun _ => true)
    [sampleAudioFile] none rfl⟩

/-- C3 counterexample: cancelling a two-file batch while item 0 is being
processed yields the terminal state `cancelled` with a final overall
progress of `1/2`, not `1`. -/
theorem progress_one_at_terminal_false :
    (startOverallConversion sampleEnvCancel0 (fun _ => true)
        [sampleFile, sampleFile2] none).finalState = ConversionState.cancelled
    ∧ (startOverallConversion sampleEnvCancel0 (fun _ => true)
        [sampleFile, sampleFile2] none).progressTrace.getLast? = some (1 / 2)
    ∧ ((1 : ℚ) / 2) ≠ 1 := by
  refine ⟨rfl, ?_, by norm_num⟩
  obtain ⟨-, -, ht, -⟩ := startOverallConversion_cancelled sampleEnvCancel0
    (fun _ => true) [sampleFile, sampleFile2] none 0 rfl (by decide)
  rw [ht]
  norm_num [List.enumFrom]

/-- C3 amended: in both runners the overall progress fraction is
monotonically non-decreasing for the lifetime of a batch.  In the
generic conversion runner the fraction ends at `1` whenever the batch
reaches a terminal state other than `cancelled`, while a batch cancelled
while a non-final item `c` is being processed terminates `cancelled`
with the fraction at `(c + 1) / n < 1`.  In the audio compression runner
(which has no cancellation path) the fraction ends at `1` for every
non-empty batch. -/
theorem progress_monotone_amended (env : RunnerEnv) (w : Nat → Bool)
    (files : List FileToConvert) (store : HistoryStore)
    (aenv : AudioEnv) (w' : Nat → Bool) (afiles : List AudioFile)
    (astore : HistoryStore) (hne : files ≠ []) :
    List.Chain' (· ≤ ·)
      (startOverallConversion env w files store).progressTrace
    ∧ ((startOverallConversion env w files store).finalState
          ≠ ConversionState.cancelled →
        (startOverallConversion env w files store).progressTrace.getLast?
          = some 1)
    ∧ (∀ c, env.cancelAt = some c → c + 1 < files.length →
        (startOverallConversion env w files store).finalState
            = ConversionState.cancelled
        ∧ (startOverallConversion env w files store).progressTrace.getLast?
            = some (((c : ℚ) + 1) / ((files.length : ℚ)))
        ∧ ((c : ℚ) + 1) / ((files.length : ℚ)) < 1)
    ∧ List.Chain' (· ≤ ·)
        (startCompression aenv w' afiles astore).progressTrace
    ∧ (afiles ≠ [] →
        (startCompression aenv w' afiles astore).progressTrace.getLast?
          = some 1) := by
  refine ⟨?_, ?_, ?_, ?_, ?_⟩
  · rcases hco : env.cancelAt with _ | c
    · obtain ⟨-, -, ht, -⟩ := startOverallConversion_full env w files store
        (fun j _ => by simp [cancelFlagAt, hco])
      rw [ht]
      exact chain'_progress files.length files 0 0 (by positivity)
    · rcases Nat.lt_or_ge c files.length with hlt | hge
      · obtain ⟨-, -, ht, -⟩ :=
          startOverallConversion_cancelled env w files store c hco hlt
        rw [ht]
        exact chain'_progress files.length _ 0 0 (by positivity)
      · obtain ⟨-, -, ht, -⟩ := startOverallConversion_full env w files store
          (fun j hj => by
            simp only [cancelFlagAt, hco, decide_eq_false_iff_not]
            omega)
        rw [ht]
        exact chain'_progress files.length files 0 0 (by positivity)
  · intro hterm
    have hflag : cancelFlagAt env.cancelAt files.length = false := by
      cases hb : cancelFlagAt env.cancelAt files.length
      · rfl
      · exact absurd (by simp [startOverallConversion, hb]) hterm
    obtain ⟨-, -, ht, -⟩ := startOverallConversion_full env w files store
      (cancelFlagAt_false_of_le env.cancelAt files.length hflag)
    rw [ht]
    exact getLast?_progress_full files hne
  · intro c hc hlt1
    have hlt : c < files.length := by omega
    obtain ⟨-, -, ht, hf⟩ :=
      startOverallConversion_cancelled env w files store c hc hlt
    have hlen : (files.take (c + 1)).length = c + 1 := by
      simp only [List.length_take]
      omega
    have hn0 : 0 < files.length := by omega
    have hn : (0 : ℚ) < ((files.length : ℚ)) := by exact_mod_cast hn0
    refine ⟨hf, ?_, ?_⟩
    · rw [ht, getLast?_progress, hlen, if_neg (Nat.succ_ne_zero c)]
      push_cast
      ring_nf
    · rw [div_lt_one hn]
      exact_mod_cast hlt1
  · rw [startCompression_trace]
    exact chain'_progress afiles.length afiles 0 0 (by positivity)
  · intro hane
    rw [startCompression_trace]
    exact getLast?_progress_full afiles hane

/-- C3 witness: a one-file generic batch with no cancellation and a
one-file audio compression batch both have monotone traces ending at
`1`. -/
theorem progress_monotone_amended_witness :
    ([sampleFile] : List FileToConvert) ≠ []
    ∧ List.Chain' (· ≤ ·)
        (startOverallConversion sampleEnv (fun _ => true)
          [sampleFile] none).progressTrace
    ∧ (startOverallConversion sampleEnv (fun _ => true)
        [sampleFile] none).progressTrace.getLast? = some 1
    ∧ List.Chain' (· ≤ ·)
        (startCompression sampleAudioEnvOk (fun _ => true)
          [sampleAudioFile] none).progressTrace
    ∧ (startCompression sampleAudioEnvOk (fun _ => true)
        [sampleAudioFile] none).progressTrace.getLast? = some 1 :=
  ⟨List.cons_ne_nil _ _,
    (progress_monotone_amended sampleEnv (fun _ => true) [sampleFile] none
      sampleAudioEnvOk (fun _ => true) [sampleAudioFile] none
      (List.cons_ne_nil _ _)).1,
    (progress_monotone_amended sampleEnv (fun _ => true) [sampleFile] none
      sampleAudioEnvOk (fun _ => true) [sampleAudioFile] none
      (List.cons_ne_nil _ _)).2.1 (by decide),
    (progress_monotone_amended sampleEnv (fun _ => true) [sampleFile] none
      sampleAudioEnvOk (fun _ => true) [sampleAudioFile] none
      (List.cons_ne_nil _ _)).2.2.2.1,
    (progress_monotone_amended sampleEnv (fun _ => true) [sampleFile] none
      sampleAudioEnvOk (fun _ => true) [sampleAudioFile] none
      (List.cons_ne_nil _ _)).2.2.2.2 (List.cons_ne_nil _ _)⟩

/-- C4: if cancellation is requested while item `c` of the queue is being
processed, the run ends `cancelled`, items `0..c` are processed in order
— each with its result pushed and its history entry recorded, success or
failure alike — and items `c+1..n-1` never start and produce nothing. -/
theorem cancellation_boundary (env : RunnerEnv) (w : Nat → Bool)
    (files : List FileToConvert) (store : HistoryStore) (c : Nat)
    (hc : env.cancelAt = some c) (hlt : c < files.length) :
    (startOverallConversion env w files store).finalState
        = ConversionState.cancelled
    ∧ (startOverallConversion env w files store).results
        = ((files.take (c + 1)).enumFrom 0).map (resultAt env)
    ∧ (startOverallConversion env w files store).appended
        = ((files.take (c + 1)).enumFrom 0).map (entryAt env)
    ∧ (startOverallConversion env w files store).results.length = c + 1
    ∧ (startOverallConversion env w files store).appended.length = c + 1 := by
  obtain ⟨hr, ha, -, hf⟩ :=
    startOverallConversion_cancelled env w files store c hc hlt
  refine ⟨hf, hr, ha, ?_, ?_⟩ <;>
    simp [hr, ha, List.length_take] <;> omega

/-- C4 witness: cancelling during item 0 of a two-file batch records
exactly item 0 and ends cancelled. -/
theorem cancellation_boundary_witness :
    sampleEnvCancel0.cancelAt = some 0
    ∧ 0 < ([sampleFile, sampleFile2] : List FileToConvert).length
    ∧ (startOverallConversion sampleEnvCancel0 (fun _ => true)
        [sampleFile, sampleFile2] none).finalState = ConversionState.cancelled
    ∧ (startOverallConversion sampleEnvCancel0 (fun _ => true)
        [sampleFile, sampleFile2] none).appended.length = 0 + 1 :=
  ⟨rfl, by decide,
    (cancellation_boundary sampleEnvCancel0 (fun _ => true)
      [sampleFile, sampleFile2] none 0 rfl (by decide)).1,
    (cancellation_boundary sampleEnvCancel0 (fun _ => true)
      [sampleFile, sampleFile2] none 0 rfl (by decide)).2.2.2.2⟩

lemma classifyOutcome_spec (R : List ConvertedFileResult) :
    (classifyOutcome R.length R = BatchOutcome.completed
      ↔ ∀ r ∈ R, r.success = true)
    ∧ (classifyOutcome R.length R = BatchOutcome.mixedFailure
      ↔ ((∃ r ∈ R, r.success = true) ∧ ∃ r ∈ R, r.success = false))
    ∧ (classifyOutcome R.length R = BatchOutcome.allFailed
      ↔ ((∀ r ∈ R, r.success = false) ∧ ∃ r ∈ R, r.success = false)) := by
  have h1 : (R.filter (fun r => r.success)).length = R.length
      ↔ ∀ r ∈ R, r.success = true := List.filter_length_eq_length
  have h0 : (R.filter (fun r => r.success)).length = 0
      ↔ ∀ r ∈ R, r.success = false := by
    rw [List.length_eq_zero, List.filter_eq_nil_iff]
    simp
  have hpos : 0 < (R.filter (fun r => r.success)).length
      ↔ ∃ r ∈ R, r.success = true := by
    rw [List.length_pos]
    constructor
    · intro hne
      rcases List.exists_mem_of_ne_nil _ hne with ⟨a, ha⟩
      exact ⟨a, (List.mem_filter.mp ha).1, (List.mem_filter.mp ha).2⟩
    · rintro ⟨a, ha, hpa⟩
      exact List.ne_nil_of_mem (List.mem_filter.mpr ⟨ha, hpa⟩)
  simp only [classifyOutcome]
  split_ifs with hA hB
  · refine ⟨iff_of_true rfl (h1.mp hA), iff_of_false (by decide) ?_,
      iff_of_false (by decide) ?_⟩
    · rintro ⟨-, r, hr, hf⟩
      have hrt := h1.mp hA r hr
      simp [hrt] at hf
    · rintro ⟨-, r, hr, hf⟩
      have hrt := h1.mp hA r hr
      simp [hrt] at hf
  · refine ⟨iff_of_false (by decide) ?_, iff_of_true rfl ?_,
      iff_of_false (by decide) ?_⟩
    · intro hall
      exact hA (h1.mpr hall)
    · refine ⟨hpos.mp hB, ?_⟩
      by_contra hno
      push_neg at hno
      exact hA (h1.mpr (fun r hr => by
        have := hno r hr
        cases hs : r.success
        · exact absurd hs this
        · rfl))
    · rintro ⟨hall, -⟩
      have := h0.mpr hall
      omega
  · have hsc0 : (R.filter (fun r => r.success)).length = 0 := by omega
    refine ⟨iff_of_false (by decide) ?_, iff_of_false (by decide) ?_,
      iff_of_true rfl ?_⟩
    · intro hall
      exact hA (h1.mpr hall)
    · rintro ⟨hex, -⟩
      exact hB (hpos.mpr hex)
    · refine ⟨h0.mp hsc0, ?_⟩
      have hRne : R ≠ [] := by
        intro hnil
        exact hA (by simp [hnil])
      rcases List.exists_mem_of_ne_nil R hRne with ⟨r, hr⟩
      exact ⟨r, hr, h0.mp hsc0 r hr⟩

lemma classifyFinal_eq (N : Nat) (R : List ConvertedFileResult) :
    classifyFinal N R
      = (if classifyOutcome N R = BatchOutcome.completed
         then ConversionState.completed else ConversionState.error) := by
  simp only [classifyFinal, classifyOutcome]
  by_cases hA : (R.filter (fun r => r.success)).length = N
  · simp [hA]
  · by_cases hB : 0 < (R.filter (fun r => r.success)).length <;> simp [hA, hB]

/-- C5: when the loop finishes without cancellation, the terminal
outcome branch is exactly determined by the per-item outcomes —
`completed` iff every item succeeded, the partial-failure branch iff at
least one item succeeded and at least one failed, the all-failed branch
iff no item succeeded and at least one failed — these conditions are
mutually exclusive (the branch classifier is a function), and the final
`conversionState` is `completed` on the first branch and `error`
otherwise. -/
theorem terminal_state_classification (env : RunnerEnv) (w : Nat → Bool)
    (files : List FileToConvert) (store : HistoryStore)
    (h : env.cancelAt = none) :
    (classifyOutcome files.length
          (startOverallConversion env w files store).results
        = BatchOutcome.completed
      ↔ ∀ r ∈ (startOverallConversion env w files store).results,
          r.success = true)
    ∧ (classifyOutcome files.length
          (startOverallConversion env w files store).results
        = BatchOutcome.mixedFailure
      ↔ ((∃ r ∈ (startOverallConversion env w files store).results,
            r.success = true)
          ∧ ∃ r ∈ (startOverallConversion env w files store).results,
            r.success = false))
    ∧ (classifyOutcome files.length
          (startOverallConversion env w files store).results
        = BatchOutcome.allFailed
      ↔ ((∀ r ∈ (startOverallConversion env w files store).results,
            r.success = false)
          ∧ ∃ r ∈ (startOverallConversion env w files store).results,
            r.success = false))
    ∧ (startOverallConversion env w files store).finalState
        = (if classifyOutcome files.length
              (startOverallConversion env w files store).results
              = BatchOutcome.completed
           then ConversionState.completed else ConversionState.error) := by
  obtain ⟨hr, -, -, hf⟩ := startOverallConversion_full env w files store
    (fun j _ => by simp [cancelFlagAt, h])
  have hlen : (startOverallConversion env w files store).results.length
      = files.length := by
    rw [hr]
    simp
  have hkey := classifyOutcome_spec (startOverallConversion env w files store).results
  rw [hlen] at hkey
  obtain ⟨c1, c2, c3⟩ := hkey
  refine ⟨c1, c2, c3, ?_⟩
  rw [hf, classifyFinal_eq, hr]

/-- C5 witness: the code's final-state assignment agrees with the branch
classifier on a concrete mixed-outcome batch. -/
theorem terminal_state_classification_witness :
    sampleEnv.cancelAt = none
    ∧ (startOverallConversion sampleEnv (fun _ => true)
          [sampleFile, sampleFile2] none).finalState
        = (if classifyOutcome ([sampleFile, sampleFile2] : List FileToConvert).length
              (startOverallConversion sampleEnv (fun _ => true)
                [sampleFile, sampleFile2] none).results
              = BatchOutcome.completed
           then ConversionState.completed else ConversionState.error) :=
  ⟨rfl, (terminal_state_classification sampleEnv (fun _ => true)
    [sampleFile, sampleFile2] none rfl).2.2.2⟩

/-- C6: a processor invocation that throws is caught at the item
boundary and normalized into the same per-item error shape as a declared
failure (`success = false`, message prefixed `Unexpected error: `); the
loop still processes every item, still records one history entry per
item, and the batch does not end cancelled because an item threw. -/
theorem unexpected_fault_contained (env : RunnerEnv) (w : Nat → Bool)
    (files : List FileToConvert) (store : HistoryStore) (j : Nat)
    (msg : String) (h : env.cancelAt = none) (hj : j < files.length)
    (hthrow : env.proc j = ProcOutcome.thrown msg) :
    (startOverallConversion env w files store).results.length = files.length
    ∧ (startOverallConversion env w files store).appended.length = files.length
    ∧ (startOverallConversion env w files store).finalState
        ≠ ConversionState.cancelled
    ∧ (startOverallConversion env w files store).results[j]?
        = some (itemResult (files.get ⟨j, hj⟩) env.outputFormatExtension
            (ProcOutcome.thrown msg))
    ∧ (itemResult (files.get ⟨j, hj⟩) env.outputFormatExtension
          (ProcOutcome.thrown msg)).success = false
    ∧ (itemResult (files.get ⟨j, hj⟩) env.outputFormatExtension
          (ProcOutcome.thrown msg)).error
        = some ("Unexpected error: " ++ msg) := by
  obtain ⟨hr, ha, -, hf⟩ := startOverallConversion_full env w files store
    (fun i _ => by simp [cancelFlagAt, h])
  refine ⟨by rw [hr]; simp, by rw [ha]; simp, ?_, ?_, rfl, rfl⟩
  · rw [hf]
    simp only [classifyFinal]
    split_ifs <;> simp
  · rw [hr]
    simp [List.getElem?_map, List.getElem?_enumFrom, resultAt, hthrow, hj,
      List.getElem?_eq_getElem, List.get_eq_getElem]

/-- C6 witness: a two-file batch whose first processor call throws still
processes both files and does not end cancelled. -/
theorem unexpected_fault_contained_witness :
    sampleEnvThrow0.cancelAt = none
    ∧ 0 < ([sampleFile, sampleFile2] : List FileToConvert).length
    ∧ sampleEnvThrow0.proc 0 = ProcOutcome.thrown "boom"
    ∧ (startOverallConversion sampleEnvThrow0 (fun _ => true)
          [sampleFile, sampleFile2] none).results.length
        = ([sampleFile, sampleFile2] : List FileToConvert).length
    ∧ (startOverallConversion sampleEnvThrow0 (fun _ => true)
          [sampleFile, sampleFile2] none).finalState
        ≠ ConversionState.cancelled :=
  ⟨rfl, by decide, by decide,
    (unexpected_fault_contained sampleEnvThrow0 (fun _ => true)
      [sampleFile, sampleFile2] none 0 "boom" rfl (by decide) (by decide)).1,
    (unexpected_fault_contained sampleEnvThrow0 (fun _ => true)
      [sampleFile, sampleFile2] none 0 "boom" rfl (by decide) (by decide)).2.2.1⟩

end ConvertPro
